import Mathlib

/-!
Verification of the task-store and SSE-stream core of `src/app.py`
(a Flask + HTMX demo application).

The mutable module state of the Python program — the global `tasks`
list of dicts and the `next_task_id` counter — is embedded as an
explicit `Store` value threaded through the handlers.  Each HTTP
handler becomes a pure function returning the new store together
with an `Except AppError` result; `AppError.validation` stands for
the handlers' 400 "title is required" response and
`AppError.notFound` for the 404 "Task not found" response.  Form
fields (`request.form.get`) are `Option String`: `none` models a
missing key.
-/

namespace HtmxApp

/-- A task record, one dict of the `tasks` list in `src/app.py`.
`priority` is an `Option String` because `update_task` stores
`request.form.get('priority')` unchanged, which is Python `None`
when the form field is absent. -/
structure Task where
  id : Nat
  title : String
  completed : Bool
  priority : Option String
  deriving Repr, DecidableEq

/-- The module state of `src/app.py`: the global `tasks` list together
with the global `next_task_id` counter. -/
structure Store where
  tasks : List Task
  next_task_id : Nat
  deriving Repr, DecidableEq

/-- The initial in-memory data of `src/app.py` (lines 29-33). -/
def initialTasks : List Task :=
  [⟨1, "Learn HTMX", false, some "high"⟩,
   ⟨2, "Build Flask App", false, some "medium"⟩,
   ⟨3, "Deploy to Production", false, some "low"⟩]

/-- The store as the process starts: the three seeded tasks and
`next_task_id = 4` (line 40). -/
def initialStore : Store := ⟨initialTasks, 4⟩

/-- The store with no tasks and the id counter at the value the
allocation policy dictates with nothing yet allocated
(maximum allocated id + 1 = 1): the "empty store" of the spec's
end-to-end scenario 1. -/
def emptyStore : Store := ⟨[], 1⟩

/-- The two error responses of the task handlers: `validation` is the
400 "Task title is required" response, `notFound` the 404
"Task not found" response. -/
inductive AppError where
  | validation
  | notFound
  deriving Repr, DecidableEq

/-- A form field value; `none` models a key missing from
`request.form`. -/
abbrev FormVal := Option String

/-- Handler `get_tasks` (src/app.py lines 83-94): filters the task
list by the `status` query parameter.  Any status other than
"completed" or "active" — "all" included — returns the whole list;
the handler has no error path. -/
def get_tasks (s : Store) (filter_status : String) : List Task :=
  if filter_status = "completed" then s.tasks.filter (fun t => t.completed)
  else if filter_status = "active" then s.tasks.filter (fun t => !t.completed)
  else s.tasks

/-- Handler `create_task` (src/app.py lines 97-116): a missing or
empty title (`if not title`) is rejected with the 400 response and
the store is untouched; otherwise a task with id `next_task_id`,
`completed = False` and priority `request.form.get('priority',
'medium')` (so "medium" only when the field is absent) is appended
and the counter incremented. -/
def create_task (s : Store) (title priority : FormVal) : Store × Except AppError Task :=
  match title with
  | none => (s, Except.error AppError.validation)
  | some str =>
    if str = "" then (s, Except.error AppError.validation)
    else
      let new_task : Task := ⟨s.next_task_id, str, false, some (priority.getD "medium")⟩
      (⟨s.tasks ++ [new_task], s.next_task_id + 1⟩, Except.ok new_task)

/-- The lookup `next((t for t in tasks if t['id'] == task_id), None)`
shared by the single-task handlers: the first task with the given
id, if any. -/
def find_task (s : Store) (task_id : Nat) : Option Task :=
  s.tasks.find? (fun t => t.id == task_id)

/-- Handler `get_task` (src/app.py lines 119-125). -/
def get_task (s : Store) (task_id : Nat) : Except AppError Task :=
  match find_task s task_id with
  | none => Except.error AppError.notFound
  | some t => Except.ok t

/-- Replace the first element satisfying `p` by its image under `f`,
leaving every other element and the order untouched: the effect, on
the list, of mutating in place the dict returned by `next(...)` in
the Python handlers. -/
def modifyFirst {α : Type u} (p : α → Bool) (f : α → α) : List α → List α
  | [] => []
  | x :: xs => if p x then f x :: xs else x :: modifyFirst p f xs

/-- The in-place mutation of `toggle_task`:
`task['completed'] = not task['completed']`. -/
def flipCompleted (t : Task) : Task := { t with completed := !t.completed }

/-- Handler `toggle_task` (src/app.py lines 128-136): 404 when the id
is absent, otherwise flips `completed` on the found task in place
and returns the updated task. -/
def toggle_task (s : Store) (task_id : Nat) : Store × Except AppError Task :=
  match find_task s task_id with
  | none => (s, Except.error AppError.notFound)
  | some t =>
    (⟨modifyFirst (fun u => u.id == task_id) flipCompleted s.tasks, s.next_task_id⟩,
     Except.ok (flipCompleted t))

/-- The in-place mutation of `update_task`: `task['title'] = title;
task['priority'] = priority` — the priority form value is stored
exactly as read, `None` included. -/
def setTitlePriority (ttl : String) (priority : FormVal) (t : Task) : Task :=
  { t with title := ttl, priority := priority }

/-- Handler `update_task` (src/app.py lines 148-164): looks the task
up first (404 when the id is absent), then rejects a missing or
empty title (400), and otherwise stores the new title and the raw
priority form value in place. -/
def update_task (s : Store) (task_id : Nat) (title priority : FormVal) :
    Store × Except AppError Task :=
  match find_task s task_id with
  | none => (s, Except.error AppError.notFound)
  | some t =>
    match title with
    | none => (s, Except.error AppError.validation)
    | some ttl =>
      if ttl = "" then (s, Except.error AppError.validation)
      else
        (⟨modifyFirst (fun u => u.id == task_id) (setTitlePriority ttl priority) s.tasks,
          s.next_task_id⟩,
         Except.ok (setTitlePriority ttl priority t))

/-- Handler `delete_task` (src/app.py lines 167-172): rebinds the
global list to every task whose id differs and always answers
`'', 200` — there is no error path, so the result is always `ok`. -/
def delete_task (s : Store) (task_id : Nat) : Store × Except AppError Unit :=
  (⟨s.tasks.filter (fun t => !(t.id == task_id)), s.next_task_id⟩, Except.ok ())

/-- One event of the SSE stream: the `count`/`message`/`value` object
yielded by `generate` inside `sse_stream`. -/
structure StreamEvent where
  count : Nat
  message : String
  value : Nat
  deriving Repr, DecidableEq

/-- Python `random.randint (lo, hi)` — both bounds inclusive — with
the entropy injected as the number `r`. -/
def randint (lo hi : Nat) (r : Nat) : Nat := lo + r % (hi - lo + 1)

/-- Handler `sse_stream` (src/app.py lines 433-447): the generator
yields, for i = 0..9, one event with count `i + 1`, message
`Update i+1` and a random value drawn by `random.randint(1, 100)`,
then returns, ending the stream.  The randomness source is the
injected `rng`; the 1-second sleep between emissions is timing, not
data, and is not modelled. -/
def sse_stream (rng : Nat → Nat) : List StreamEvent :=
  (List.range 10).map (fun i =>
    ⟨i + 1, "Update " ++ toString (i + 1), randint 1 100 (rng i)⟩)

/-- A mutating call against the task store, for stating invariants
over arbitrary call sequences. -/
inductive Op where
  | create (title priority : FormVal)
  | toggle (task_id : Nat)
  | update (task_id : Nat) (title priority : FormVal)
  | delete (task_id : Nat)
  deriving Repr

/-- The store after one handler call (the handlers' result values are
dropped, only the state transition is kept). -/
def applyOp (s : Store) : Op → Store
  | Op.create t p => (create_task s t p).1
  | Op.toggle i => (toggle_task s i).1
  | Op.update i t p => (update_task s i t p).1
  | Op.delete i => (delete_task s i).1

/-- The store after a sequence of handler calls. -/
def runOps (s : Store) : List Op → Store
  | [] => s
  | op :: ops => runOps (applyOp s op) ops

/-- The ids handed out by the successful `create` calls of a run, in
call order. -/
def assignedIds (s : Store) : List Op → List Nat
  | [] => []
  | op :: ops =>
    match op with
    | Op.create t p =>
      match (create_task s t p).2 with
      | Except.ok task => task.id :: assignedIds (applyOp s op) ops
      | Except.error _ => assignedIds (applyOp s op) ops
    | _ => assignedIds (applyOp s op) ops

/-- The largest id of an allocation list (0 when empty). -/
def maxAlloc (alloc : List Nat) : Nat := alloc.foldr max 0

/-- Checks, along a run, that every id handed out by a successful
`create` equals the maximum allocated id so far plus one, where
`alloc` carries every id allocated so far — live or deleted. -/
def freshOk (s : Store) (alloc : List Nat) : List Op → Bool
  | [] => true
  | op :: ops =>
    match op with
    | Op.create t p =>
      match (create_task s t p).2 with
      | Except.ok task =>
        (task.id == maxAlloc alloc + 1) && freshOk (applyOp s op) (task.id :: alloc) ops
      | Except.error _ => freshOk (applyOp s op) alloc ops
    | _ => freshOk (applyOp s op) alloc ops

/-- Every task of the store has a non-empty title. -/
def titlesOk (s : Store) : Bool := s.tasks.all (fun t => !(t.title == ""))

/-! ### Generic lemmas about `modifyFirst` and `List.find?` -/

theorem find_split {α : Type u} (p : α → Bool) :
    ∀ {l : List α} {x : α}, l.find? p = some x →
      ∃ l1 l2, l = l1 ++ x :: l2 ∧ (∀ y ∈ l1, p y = false) ∧ p x = true := by
  intro l
  induction l with
  | nil => intro x h; simp at h
  | cons a l ih =>
    intro x h
    by_cases hpa : p a = true
    · rw [List.find?_cons_of_pos _ hpa] at h
      obtain rfl : a = x := Option.some.inj h
      exact ⟨[], l, rfl, by simp, hpa⟩
    · rw [List.find?_cons_of_neg _ hpa] at h
      obtain ⟨l1, l2, rfl, h1, h2⟩ := ih h
      refine ⟨a :: l1, l2, rfl, ?_, h2⟩
      intro y hy
      rcases List.mem_cons.mp hy with rfl | hy
      · exact Bool.eq_false_iff.mpr hpa
      · exact h1 y hy

theorem modifyFirst_append {α : Type u} (p : α → Bool) (f : α → α) (l1 l2 : List α) (x : α)
    (h1 : ∀ y ∈ l1, p y = false) (hx : p x = true) :
    modifyFirst p f (l1 ++ x :: l2) = l1 ++ f x :: l2 := by
  induction l1 with
  | nil => simp [modifyFirst, hx]
  | cons a l1 ih =>
    have ha : p a = false := h1 a (by simp)
    simp only [List.cons_append, modifyFirst, ha, Bool.false_eq_true, if_false]
    exact congrArg (a :: ·) (ih (fun y hy => h1 y (List.mem_cons_of_mem a hy)))

theorem find_append_first {α : Type u} (p : α → Bool) (l1 l2 : List α) (x : α)
    (h1 : ∀ y ∈ l1, p y = false) (hx : p x = true) :
    (l1 ++ x :: l2).find? p = some x := by
  induction l1 with
  | nil => simpa using List.find?_cons_of_pos l2 hx
  | cons a l1 ih =>
    have ha : ¬ p a = true := by simp [h1 a (by simp)]
    simp only [List.cons_append]
    rw [List.find?_cons_of_neg _ ha]
    exact ih (fun y hy => h1 y (List.mem_cons_of_mem a hy))

theorem modifyFirst_mem {α : Type u} (p : α → Bool) (f : α → α) (Q : α → Prop)
    (hf : ∀ x, Q x → Q (f x)) :
    ∀ l : List α, (∀ y ∈ l, Q y) → ∀ y ∈ modifyFirst p f l, Q y := by
  intro l
  induction l with
  | nil => intro _ y hy; simp [modifyFirst] at hy
  | cons a l ih =>
    intro h y hy
    by_cases hpa : p a = true
    · rw [modifyFirst, if_pos hpa] at hy
      rcases List.mem_cons.mp hy with hEq | hy
      · subst hEq; exact hf a (h a (by simp))
      · exact h y (List.mem_cons_of_mem a hy)
    · rw [modifyFirst, if_neg hpa] at hy
      rcases List.mem_cons.mp hy with hEq | hy
      · subst hEq; exact h y (by simp)
      · exact ih (fun z hz => h z (List.mem_cons_of_mem a hz)) y hy

theorem modifyFirst_all {α : Type u} (p q : α → Bool) (f : α → α)
    (hf : ∀ x, q x = true → q (f x) = true) (l : List α) (h : l.all q = true) :
    (modifyFirst p f l).all q = true := by
  rw [List.all_eq_true] at h ⊢
  exact modifyFirst_mem p f (fun x => q x = true) hf l h

/-! ### Equation lemmas for the handlers -/

theorem create_ok_eq (s : Store) (str : String) (p : FormVal) (h : ¬ str = "") :
    create_task s (some str) p =
      (⟨s.tasks ++ [⟨s.next_task_id, str, false, some (p.getD "medium")⟩],
        s.next_task_id + 1⟩,
       Except.ok ⟨s.next_task_id, str, false, some (p.getD "medium")⟩) := by
  simp [create_task, h]

theorem create_error_store (s : Store) (t p : FormVal) (e : AppError)
    (h : (create_task s t p).2 = Except.error e) : (create_task s t p).1 = s := by
  cases t with
  | none => rfl
  | some str =>
    by_cases hs : str = ""
    · subst hs; rfl
    · rw [create_ok_eq s str p hs] at h; simp at h

theorem create_ok_inv (s : Store) (t p : FormVal) (task : Task)
    (h : (create_task s t p).2 = Except.ok task) :
    task.id = s.next_task_id ∧
    (create_task s t p).1 = ⟨s.tasks ++ [task], s.next_task_id + 1⟩ := by
  cases t with
  | none => simp [create_task] at h
  | some str =>
    by_cases hs : str = ""
    · subst hs; simp [create_task] at h
    · rw [create_ok_eq s str p hs] at h ⊢
      obtain rfl : (⟨s.next_task_id, str, false, some (p.getD "medium")⟩ : Task) = task :=
        Except.ok.inj h
      exact ⟨rfl, rfl⟩

theorem toggle_none_eq (s : Store) (i : Nat) (h : find_task s i = none) :
    toggle_task s i = (s, Except.error AppError.notFound) := by
  unfold toggle_task; rw [h]

theorem toggle_some_eq (s : Store) (i : Nat) (t : Task) (h : find_task s i = some t) :
    toggle_task s i =
      (⟨modifyFirst (fun u => u.id == i) flipCompleted s.tasks, s.next_task_id⟩,
       Except.ok (flipCompleted t)) := by
  unfold toggle_task; rw [h]

theorem update_none_eq (s : Store) (i : Nat) (title priority : FormVal)
    (h : find_task s i = none) :
    update_task s i title priority = (s, Except.error AppError.notFound) := by
  unfold update_task; rw [h]

theorem update_blank_eq (s : Store) (i : Nat) (t : Task) (priority : FormVal)
    (h : find_task s i = some t) (title : FormVal) (hb : title = none ∨ title = some "") :
    update_task s i title priority = (s, Except.error AppError.validation) := by
  unfold update_task; rw [h]
  rcases hb with rfl | rfl
  · rfl
  · simp

theorem update_some_eq (s : Store) (i : Nat) (t : Task) (ttl : String) (priority : FormVal)
    (h : find_task s i = some t) (httl : ¬ ttl = "") :
    update_task s i (some ttl) priority =
      (⟨modifyFirst (fun u => u.id == i) (setTitlePriority ttl priority) s.tasks,
        s.next_task_id⟩,
       Except.ok (setTitlePriority ttl priority t)) := by
  unfold update_task; rw [h]; simp [httl]

theorem toggle_next_eq (s : Store) (i : Nat) :
    (toggle_task s i).1.next_task_id = s.next_task_id := by
  cases h : find_task s i with
  | none => rw [toggle_none_eq s i h]
  | some t => rw [toggle_some_eq s i t h]

theorem update_next_eq (s : Store) (i : Nat) (title priority : FormVal) :
    (update_task s i title priority).1.next_task_id = s.next_task_id := by
  cases h : find_task s i with
  | none => rw [update_none_eq s i title priority h]
  | some t =>
    rcases title with _ | ttl
    · rw [update_blank_eq s i t priority h none (Or.inl rfl)]
    · by_cases httl : ttl = ""
      · subst httl; rw [update_blank_eq s i t priority h (some "") (Or.inr rfl)]
      · rw [update_some_eq s i t ttl priority h httl]

theorem flip_flip (t : Task) : flipCompleted (flipCompleted t) = t := by
  cases t; simp [flipCompleted]

theorem flip_id (t : Task) : (flipCompleted t).id = t.id := rfl

/-! ### The id-allocation invariant -/

/-- The allocation invariant: the counter sits one above the largest
allocated id, and every live task's id was allocated. -/
def AllocOk (s : Store) (alloc : List Nat) : Prop :=
  s.next_task_id = maxAlloc alloc + 1 ∧ ∀ t ∈ s.tasks, t.id ∈ alloc

theorem maxAlloc_cons (x : Nat) (l : List Nat) : maxAlloc (x :: l) = max x (maxAlloc l) := rfl

theorem allocOk_initial : AllocOk initialStore (initialStore.tasks.map Task.id) := by
  constructor
  · decide
  · intro t ht
    exact List.mem_map_of_mem Task.id ht

theorem allocOk_create_ok (s : Store) (t p : FormVal) (task : Task) (alloc : List Nat)
    (hinv : AllocOk s alloc) (h : (create_task s t p).2 = Except.ok task) :
    AllocOk (create_task s t p).1 (task.id :: alloc) := by
  obtain ⟨hid, hstore⟩ := create_ok_inv s t p task h
  rw [hstore]
  constructor
  · show s.next_task_id + 1 = maxAlloc (task.id :: alloc) + 1
    rw [maxAlloc_cons, hid, hinv.1]
    omega
  · intro u hu
    rcases List.mem_append.mp hu with hu | hu
    · exact List.mem_cons_of_mem _ (hinv.2 u hu)
    · rw [List.mem_singleton.mp hu]
      exact List.mem_cons_self _ _

theorem allocOk_toggle (s : Store) (i : Nat) (alloc : List Nat)
    (hinv : AllocOk s alloc) : AllocOk (toggle_task s i).1 alloc := by
  cases h : find_task s i with
  | none => rw [toggle_none_eq s i h]; exact hinv
  | some t =>
    rw [toggle_some_eq s i t h]
    refine ⟨hinv.1, ?_⟩
    exact modifyFirst_mem (fun u => u.id == i) flipCompleted
      (fun u => u.id ∈ alloc) (fun u hu => hu) s.tasks hinv.2

theorem allocOk_update (s : Store) (i : Nat) (title priority : FormVal) (alloc : List Nat)
    (hinv : AllocOk s alloc) : AllocOk (update_task s i title priority).1 alloc := by
  cases h : find_task s i with
  | none => rw [update_none_eq s i title priority h]; exact hinv
  | some t =>
    rcases title with _ | ttl
    · rw [update_blank_eq s i t priority h none (Or.inl rfl)]; exact hinv
    · by_cases httl : ttl = ""
      · subst httl; rw [update_blank_eq s i t priority h (some "") (Or.inr rfl)]; exact hinv
      · rw [update_some_eq s i t ttl priority h httl]
        refine ⟨hinv.1, ?_⟩
        exact modifyFirst_mem (fun u => u.id == i) (setTitlePriority ttl priority)
          (fun u => u.id ∈ alloc) (fun u hu => hu) s.tasks hinv.2

theorem allocOk_delete (s : Store) (i : Nat) (alloc : List Nat)
    (hinv : AllocOk s alloc) : AllocOk (delete_task s i).1 alloc := by
  refine ⟨hinv.1, ?_⟩
  intro t ht
  exact hinv.2 t (List.mem_of_mem_filter ht)

theorem freshOk_of_allocOk :
    ∀ (ops : List Op) (s : Store) (alloc : List Nat),
      AllocOk s alloc → freshOk s alloc ops = true := by
  intro ops
  induction ops with
  | nil => intro s alloc _; rfl
  | cons op ops ih =>
    intro s alloc hinv
    cases op with
    | create t p =>
      cases hcr : (create_task s t p).2 with
      | ok task =>
        have hid : task.id = s.next_task_id := (create_ok_inv s t p task hcr).1
        simp only [freshOk, hcr]
        rw [Bool.and_eq_true]
        constructor
        · rw [hid, hinv.1]; exact beq_self_eq_true _
        · exact ih _ _ (allocOk_create_ok s t p task alloc hinv hcr)
      | error e =>
        simp only [freshOk, hcr]
        have hs : (create_task s t p).1 = s := create_error_store s t p e hcr
        show freshOk (applyOp s (Op.create t p)) alloc ops = true
        rw [show applyOp s (Op.create t p) = s from hs]
        exact ih _ _ hinv
    | toggle i => exact ih _ _ (allocOk_toggle s i alloc hinv)
    | update i t p => exact ih _ _ (allocOk_update s i t p alloc hinv)
    | delete i => exact ih _ _ (allocOk_delete s i alloc hinv)

/-! ### Lower bounds on assigned ids -/

theorem next_le_applyOp (s : Store) (op : Op) :
    s.next_task_id ≤ (applyOp s op).next_task_id := by
  cases op with
  | create t p =>
    cases hcr : (create_task s t p).2 with
    | ok task =>
      rw [show applyOp s (Op.create t p) = (create_task s t p).1 from rfl,
          (create_ok_inv s t p task hcr).2]
      exact Nat.le_succ _
    | error e =>
      rw [show applyOp s (Op.create t p) = (create_task s t p).1 from rfl,
          create_error_store s t p e hcr]
  | toggle i => rw [show applyOp s (Op.toggle i) = (toggle_task s i).1 from rfl, toggle_next_eq]
  | update i t p =>
    rw [show applyOp s (Op.update i t p) = (update_task s i t p).1 from rfl, update_next_eq]
  | delete i => exact Nat.le_refl _

theorem assignedIds_lb :
    ∀ (ops : List Op) (s : Store) (x : Nat),
      x ∈ assignedIds s ops → s.next_task_id ≤ x := by
  intro ops
  induction ops with
  | nil => intro s x hx; simp [assignedIds] at hx
  | cons op ops ih =>
    intro s x hx
    cases op with
    | create t p =>
      cases hcr : (create_task s t p).2 with
      | ok task =>
        simp only [assignedIds, hcr] at hx
        rcases List.mem_cons.mp hx with hEq | hx
        · rw [hEq, (create_ok_inv s t p task hcr).1]
        · exact Nat.le_trans (next_le_applyOp s (Op.create t p)) (ih _ x hx)
      | error e =>
        simp only [assignedIds, hcr] at hx
        exact Nat.le_trans (next_le_applyOp s (Op.create t p)) (ih _ x hx)
    | toggle i =>
      simp only [assignedIds] at hx
      exact Nat.le_trans (next_le_applyOp s (Op.toggle i)) (ih _ x hx)
    | update i t p =>
      simp only [assignedIds] at hx
      exact Nat.le_trans (next_le_applyOp s (Op.update i t p)) (ih _ x hx)
    | delete i =>
      simp only [assignedIds] at hx
      exact Nat.le_trans (next_le_applyOp s (Op.delete i)) (ih _ x hx)

theorem assignedIds_sorted :
    ∀ (ops : List Op) (s : Store), List.Pairwise (· < ·) (assignedIds s ops) := by
  intro ops
  induction ops with
  | nil => intro s; simp [assignedIds]
  | cons op ops ih =>
    intro s
    cases op with
    | create t p =>
      cases hcr : (create_task s t p).2 with
      | ok task =>
        simp only [assignedIds, hcr]
        refine List.Pairwise.cons ?_ (ih _)
        intro y hy
        have hlb := assignedIds_lb ops (applyOp s (Op.create t p)) y hy
        have hnext : (applyOp s (Op.create t p)).next_task_id = s.next_task_id + 1 := by
          rw [show applyOp s (Op.create t p) = (create_task s t p).1 from rfl,
              (create_ok_inv s t p task hcr).2]
        rw [(create_ok_inv s t p task hcr).1]
        omega
      | error e => simp only [assignedIds, hcr]; exact ih _
    | toggle i => simp only [assignedIds]; exact ih _
    | update i t p => simp only [assignedIds]; exact ih _
    | delete i => simp only [assignedIds]; exact ih _

/-! ### The title invariant -/

theorem titlesOk_applyOp (s : Store) (op : Op) (h : titlesOk s = true) :
    titlesOk (applyOp s op) = true := by
  cases op with
  | create t p =>
    cases hcr : (create_task s t p).2 with
    | ok task =>
      have hinv := create_ok_inv s t p task hcr
      show ((create_task s t p).1.tasks.all fun t => !(t.title == "")) = true
      rw [hinv.2]
      rw [List.all_append, Bool.and_eq_true]
      refine ⟨h, ?_⟩
      rcases t with _ | str
      · simp [create_task] at hcr
      · by_cases hs : str = ""
        · subst hs; simp [create_task] at hcr
        · rw [create_ok_eq s str p hs] at hcr
          obtain rfl : (⟨s.next_task_id, str, false, some (p.getD "medium")⟩ : Task) = task :=
            Except.ok.inj hcr
          simpa using hs
    | error e =>
      show ((create_task s t p).1.tasks.all fun t => !(t.title == "")) = true
      rw [create_error_store s t p e hcr]
      exact h
  | toggle i =>
    cases hf : find_task s i with
    | none =>
      show ((toggle_task s i).1.tasks.all fun t => !(t.title == "")) = true
      rw [toggle_none_eq s i hf]; exact h
    | some t =>
      show ((toggle_task s i).1.tasks.all fun t => !(t.title == "")) = true
      rw [toggle_some_eq s i t hf]
      have h' : (s.tasks.all fun t => !(t.title == "")) = true := h
      exact modifyFirst_all (fun u => u.id == i) (fun t => !(t.title == ""))
        flipCompleted (fun u hu => hu) s.tasks h'
  | update i t p =>
    cases hf : find_task s i with
    | none =>
      show ((update_task s i t p).1.tasks.all fun t => !(t.title == "")) = true
      rw [update_none_eq s i t p hf]; exact h
    | some tk =>
      show ((update_task s i t p).1.tasks.all fun t => !(t.title == "")) = true
      rcases t with _ | ttl
      · rw [update_blank_eq s i tk p hf none (Or.inl rfl)]; exact h
      · by_cases httl : ttl = ""
        · subst httl; rw [update_blank_eq s i tk p hf (some "") (Or.inr rfl)]; exact h
        · rw [update_some_eq s i tk ttl p hf httl]
          refine modifyFirst_all _ _ _ ?_ s.tasks h
          intro u _
          simpa [setTitlePriority] using httl
  | delete i =>
    have h' : (s.tasks.all fun t => !(t.title == "")) = true := h
    show ((delete_task s i).1.tasks.all fun t => !(t.title == "")) = true
    rw [List.all_eq_true] at h' ⊢
    intro t ht
    exact h' t (List.mem_of_mem_filter ht)

theorem titlesOk_runOps (ops : List Op) :
    ∀ s : Store, titlesOk s = true → titlesOk (runOps s ops) = true := by
  induction ops with
  | nil => intro s h; exact h
  | cons op ops ih => intro s h; exact ih _ (titlesOk_applyOp s op h)

/-! ### The claims -/

/-- C1: every invocation of the SSE generator yields exactly 10 events,
whose `count` fields are exactly 1..10 in increasing order (so every
fresh invocation starts at 1), and every event's `value` lies in
[1, 100]; the result being a finite 10-element list models normal
termination after the 10th event. -/
theorem sse_stream_ten_events (rng : Nat → Nat) :
    (sse_stream rng).length = 10 ∧
    (sse_stream rng).map StreamEvent.count = [1, 2, 3, 4, 5, 6, 7, 8, 9, 10] ∧
    ∀ e ∈ sse_stream rng, 1 ≤ e.value ∧ e.value ≤ 100 := by
  refine ⟨rfl, rfl, ?_⟩
  intro e he
  simp only [sse_stream, List.mem_map, List.mem_range] at he
  obtain ⟨i, hi, hEq⟩ := he
  subst hEq
  constructor
  · exact Nat.le_add_right 1 _
  · show 1 + rng i % (100 - 1 + 1) ≤ 100
    have hm : rng i % (100 - 1 + 1) < 100 - 1 + 1 := Nat.mod_lt _ (by omega)
    omega

/-- C1 witness: the bounds instantiated at a concrete entropy source
and the concrete first event of that stream. -/
theorem sse_stream_ten_events_witness :
    (⟨1, "Update 1", randint 1 100 0⟩ : StreamEvent) ∈ sse_stream (fun i => i) ∧
    1 ≤ (⟨1, "Update 1", randint 1 100 0⟩ : StreamEvent).value ∧
    (⟨1, "Update 1", randint 1 100 0⟩ : StreamEvent).value ≤ 100 := by
  have hmem : (⟨1, "Update 1", randint 1 100 0⟩ : StreamEvent) ∈ sse_stream (fun i => i) := by
    decide
  exact ⟨hmem, (sse_stream_ten_events (fun i => i)).2.2 _ hmem⟩

/-- C2: over every sequence of store operations from the initial store,
the ids handed out by `create` are strictly increasing, hence unique;
every one of them exceeds every initial id (all ≤ 3), so no id — of a
deleted task included — is ever handed out twice; and each fresh id
equals the maximum allocated id so far (live or deleted, the three
seeded tasks included) plus one. -/
theorem create_ids_fresh (ops : List Op) :
    List.Pairwise (· < ·) (assignedIds initialStore ops) ∧
    (assignedIds initialStore ops).Nodup ∧
    (assignedIds initialStore ops).all (fun i => decide (3 < i)) = true ∧
    freshOk initialStore (initialStore.tasks.map Task.id) ops = true := by
  have hsorted := assignedIds_sorted ops initialStore
  refine ⟨hsorted, hsorted.imp (fun h => Nat.ne_of_lt h), ?_, ?_⟩
  · rw [List.all_eq_true]
    intro i hi
    rw [decide_eq_true_eq]
    have h4 : (4 : Nat) ≤ i := assignedIds_lb ops initialStore i hi
    omega
  · exact freshOk_of_allocOk ops initialStore _ allocOk_initial

/-- C3 counterexample: against the claim, an empty title does not give
the validation error when the id is also absent — the handler checks
existence first, so `update` on id 99 with an empty title answers
NotFound. -/
theorem update_precedence_cex :
    (update_task initialStore 99 (some "") (some "high")).2
      = Except.error AppError.notFound ∧
    ¬ (update_task initialStore 99 (some "") (some "high")).2
      = Except.error AppError.validation := by
  constructor
  · rfl
  · intro hcon
    have h1 : (update_task initialStore 99 (some "") (some "high")).2
        = Except.error AppError.notFound := rfl
    rw [h1] at hcon
    exact absurd (Except.error.inj hcon) (by decide)

/-- C3 amended: `update` fails with NotFound when the id is absent;
otherwise it fails with ValidationError when the title is missing or
empty; otherwise it rewrites the first task carrying the id in place —
new title, priority form value stored exactly as given — preserving
the task's id and completed flag and leaving every other task, the
order, and the id counter unchanged. -/
theorem update_task_spec (s : Store) (task_id : Nat) (title priority : FormVal) :
    (find_task s task_id = none →
      update_task s task_id title priority = (s, Except.error AppError.notFound)) ∧
    (∀ t, find_task s task_id = some t → (title = none ∨ title = some "") →
      update_task s task_id title priority = (s, Except.error AppError.validation)) ∧
    (∀ t ttl, find_task s task_id = some t → title = some ttl → ¬ ttl = "" →
      ∃ l1 l2,
        s.tasks = l1 ++ t :: l2 ∧
        (∀ y ∈ l1, (y.id == task_id) = false) ∧
        (t.id == task_id) = true ∧
        (update_task s task_id title priority).1.tasks
          = l1 ++ setTitlePriority ttl priority t :: l2 ∧
        (setTitlePriority ttl priority t).id = t.id ∧
        (setTitlePriority ttl priority t).completed = t.completed ∧
        (setTitlePriority ttl priority t).title = ttl ∧
        (setTitlePriority ttl priority t).priority = priority ∧
        (update_task s task_id title priority).1.next_task_id = s.next_task_id ∧
        (update_task s task_id title priority).2
          = Except.ok (setTitlePriority ttl priority t)) := by
  refine ⟨?_, ?_, ?_⟩
  · intro h; exact update_none_eq s task_id title priority h
  · intro t h hb; exact update_blank_eq s task_id t priority h title hb
  · intro t ttl h hEq httl
    subst hEq
    have hfind : s.tasks.find? (fun u : Task => u.id == task_id) = some t := h
    obtain ⟨l1, l2, hsplit, hl1, hpt⟩ := find_split (fun u : Task => u.id == task_id) hfind
    refine ⟨l1, l2, hsplit, hl1, hpt, ?_, rfl, rfl, rfl, rfl, ?_, ?_⟩
    · rw [update_some_eq s task_id t ttl priority h httl]
      show modifyFirst (fun u => u.id == task_id) (setTitlePriority ttl priority) s.tasks = _
      rw [hsplit]
      exact modifyFirst_append _ _ l1 l2 t hl1 hpt
    · rw [update_some_eq s task_id t ttl priority h httl]
    · rw [update_some_eq s task_id t ttl priority h httl]

/-- C3 witness: the amended theorem applied at a present id with an
empty title — the call fails with the validation error and the store
is unchanged. -/
theorem update_task_spec_witness :
    update_task initialStore 1 (some "") (some "high")
      = (initialStore, Except.error AppError.validation) :=
  (update_task_spec initialStore 1 (some "") (some "high")).2.1
    ⟨1, "Learn HTMX", false, some "high"⟩ (by decide) (Or.inr rfl)

/-- C4: on the empty store (nothing allocated, counter at 1),
create("Write spec", "high") leaves exactly one task in the store, and
that task has id 1, completed false and priority "high". -/
theorem create_on_empty :
    (create_task emptyStore (some "Write spec") (some "high")).1.tasks
      = [⟨1, "Write spec", false, some "high"⟩] ∧
    (create_task emptyStore (some "Write spec") (some "high")).1.next_task_id = 2 ∧
    (create_task emptyStore (some "Write spec") (some "high")).2
      = Except.ok ⟨1, "Write spec", false, some "high"⟩ :=
  ⟨rfl, rfl, rfl⟩

/-- C5 counterexample: against the claim, priority is not validated at
the boundary — `create` with priority "banana" succeeds and the store
then holds a task whose priority is outside low/medium/high. -/
theorem create_priority_unvalidated :
    ((create_task initialStore (some "Ship it") (some "banana")).1.tasks.all
        (fun t => (t.priority == some "low") || (t.priority == some "medium")
          || (t.priority == some "high"))) = false ∧
    (create_task initialStore (some "Ship it") (some "banana")).2
      = Except.ok ⟨4, "Ship it", false, some "banana"⟩ :=
  ⟨rfl, rfl⟩

/-- C5 amended: every task ever held in the store has a non-empty title
(the boundary checks of `create` and `update` plus the seeded data
guarantee it), and `create` defaults the priority to "medium" when the
field is absent; priority values themselves are not validated. -/
theorem store_titles_nonempty (ops : List Op) (s : Store) (str : String) :
    titlesOk (runOps initialStore ops) = true ∧
    (¬ str = "" → (create_task s (some str) none).2
      = Except.ok ⟨s.next_task_id, str, false, some "medium"⟩) := by
  constructor
  · exact titlesOk_runOps ops initialStore (by decide)
  · intro h
    rw [create_ok_eq s str none h]
    rfl

/-- C5 witness: the amended theorem at the empty run and a concrete
non-empty title. -/
theorem store_titles_nonempty_witness :
    titlesOk (runOps initialStore []) = true ∧
    (create_task initialStore (some "Write tests") none).2
      = Except.ok ⟨4, "Write tests", false, some "medium"⟩ := by
  have h := store_titles_nonempty [] initialStore "Write tests"
  exact ⟨h.1, h.2 (by decide)⟩

/-- C6: `create` with a missing or empty title fails with the
validation error and returns the store exactly unchanged — no task
appended, the id counter not advanced — for every store state and
every priority argument. -/
theorem create_blank_rejected (s : Store) (priority : FormVal) :
    create_task s none priority = (s, Except.error AppError.validation) ∧
    create_task s (some "") priority = (s, Except.error AppError.validation) :=
  ⟨rfl, rfl⟩

/-- C7: for every store state, the active and completed listings are
disjoint, together they are exactly the full listing as sets, each is
an ordered subsequence of the full listing, and listing is total (the
"all" filter — like any unrecognised one — returns the whole store),
so it never errors. -/
theorem get_tasks_partition (s : Store) :
    List.Disjoint (get_tasks s "active") (get_tasks s "completed") ∧
    (∀ x : Task, x ∈ get_tasks s "all" ↔
      x ∈ get_tasks s "active" ∨ x ∈ get_tasks s "completed") ∧
    List.Sublist (get_tasks s "active") (get_tasks s "all") ∧
    List.Sublist (get_tasks s "completed") (get_tasks s "all") ∧
    get_tasks s "all" = s.tasks := by
  have hall : get_tasks s "all" = s.tasks := rfl
  have hact : get_tasks s "active" = s.tasks.filter (fun t => !t.completed) := rfl
  have hcomp : get_tasks s "completed" = s.tasks.filter (fun t => t.completed) := rfl
  refine ⟨?_, ?_, ?_, ?_, hall⟩
  · intro a h1 h2
    rw [hact, List.mem_filter] at h1
    rw [hcomp, List.mem_filter] at h2
    have hb := h1.2
    rw [h2.2] at hb
    simp at hb
  · intro x
    rw [hall, hact, hcomp, List.mem_filter, List.mem_filter]
    constructor
    · intro hx
      cases hc : x.completed
      · exact Or.inl ⟨hx, rfl⟩
      · exact Or.inr ⟨hx, rfl⟩
    · intro hx
      rcases hx with ⟨hx, _⟩ | ⟨hx, _⟩ <;> exact hx
  · rw [hact, hall]; exact List.filter_sublist _
  · rw [hcomp, hall]; exact List.filter_sublist _

/-- C7 witness: the partition property instantiated at the initial
store. -/
theorem get_tasks_partition_witness :
    get_tasks initialStore "all" = initialStore.tasks :=
  (get_tasks_partition initialStore).2.2.2.2

/-- C8: toggling an absent id fails with NotFound; toggling a present
id flips the found task's completed flag, and toggling twice returns
the store — the task's completed flag included — to exactly its
original state: toggle is an involution. -/
theorem toggle_involution (s : Store) (task_id : Nat) :
    (find_task s task_id = none →
      toggle_task s task_id = (s, Except.error AppError.notFound)) ∧
    (∀ t, find_task s task_id = some t →
      (toggle_task s task_id).2 = Except.ok (flipCompleted t) ∧
      (flipCompleted t).completed = !t.completed ∧
      (toggle_task (toggle_task s task_id).1 task_id).1 = s ∧
      (toggle_task (toggle_task s task_id).1 task_id).2 = Except.ok t) := by
  refine ⟨fun h => toggle_none_eq s task_id h, ?_⟩
  intro t h
  have hfind : s.tasks.find? (fun u : Task => u.id == task_id) = some t := h
  obtain ⟨l1, l2, hsplit, hl1, hpt⟩ := find_split (fun u : Task => u.id == task_id) hfind
  have h1eq : (toggle_task s task_id).1
      = ⟨l1 ++ flipCompleted t :: l2, s.next_task_id⟩ := by
    rw [toggle_some_eq s task_id t h]
    show Store.mk (modifyFirst (fun u => u.id == task_id) flipCompleted s.tasks)
      s.next_task_id = _
    rw [hsplit, modifyFirst_append _ _ l1 l2 t hl1 hpt]
  have hpt' : ((flipCompleted t).id == task_id) = true := hpt
  have hfind2 : find_task (toggle_task s task_id).1 task_id = some (flipCompleted t) := by
    rw [h1eq]
    show (l1 ++ flipCompleted t :: l2).find? (fun u => u.id == task_id) = _
    exact find_append_first _ l1 l2 _ hl1 hpt'
  refine ⟨?_, rfl, ?_, ?_⟩
  · rw [toggle_some_eq s task_id t h]
  · rw [toggle_some_eq _ _ _ hfind2, h1eq]
    show Store.mk (modifyFirst (fun u => u.id == task_id) flipCompleted
      (l1 ++ flipCompleted t :: l2)) s.next_task_id = s
    rw [modifyFirst_append _ _ l1 l2 _ hl1 hpt', flip_flip, ← hsplit]
  · rw [toggle_some_eq _ _ _ hfind2, flip_flip]

/-- C8 witness: toggling task 1 of the initial store twice restores the
initial store. -/
theorem toggle_involution_witness :
    (toggle_task (toggle_task initialStore 1).1 1).1 = initialStore := by
  have h := (toggle_involution initialStore 1).2
    ⟨1, "Learn HTMX", false, some "high"⟩ (by decide)
  exact h.2.2.1

/-- C9: delete never errors — both of two successive calls on the same
id answer ok — the first call removes every task with the id, and the
second call, on the now-absent id, leaves the store exactly unchanged:
delete is idempotent. -/
theorem delete_idempotent (s : Store) (task_id : Nat) :
    (delete_task s task_id).2 = Except.ok () ∧
    (delete_task (delete_task s task_id).1 task_id).2 = Except.ok () ∧
    (delete_task (delete_task s task_id).1 task_id).1 = (delete_task s task_id).1 ∧
    ((delete_task s task_id).1.tasks.all (fun t => !(t.id == task_id))) = true := by
  refine ⟨rfl, rfl, ?_, ?_⟩
  · have hall : ∀ a ∈ (delete_task s task_id).1.tasks, (!(a.id == task_id)) = true := by
      intro a ha
      exact (List.mem_filter.mp ha).2
    show Store.mk ((delete_task s task_id).1.tasks.filter fun t => !(t.id == task_id))
      s.next_task_id = (delete_task s task_id).1
    rw [List.filter_eq_self.mpr hall]
    rfl
  · rw [List.all_eq_true]
    intro a ha
    exact (List.mem_filter.mp ha).2

/-- C10: toggling a present id rewrites only the first task carrying
that id, flipping exactly its completed flag — id, title and priority
survive — while every task before and after it, the order, and the id
counter are untouched. -/
theorem toggle_frame (s : Store) (task_id : Nat) (t : Task)
    (h : find_task s task_id = some t) :
    ∃ l1 l2,
      s.tasks = l1 ++ t :: l2 ∧
      (∀ y ∈ l1, (y.id == task_id) = false) ∧
      (toggle_task s task_id).1.tasks = l1 ++ flipCompleted t :: l2 ∧
      (flipCompleted t).id = t.id ∧
      (flipCompleted t).title = t.title ∧
      (flipCompleted t).priority = t.priority ∧
      (flipCompleted t).completed = !t.completed ∧
      (toggle_task s task_id).1.next_task_id = s.next_task_id := by
  have hfind : s.tasks.find? (fun u : Task => u.id == task_id) = some t := h
  obtain ⟨l1, l2, hsplit, hl1, hpt⟩ := find_split (fun u : Task => u.id == task_id) hfind
  refine ⟨l1, l2, hsplit, hl1, ?_, rfl, rfl, rfl, rfl, ?_⟩
  · rw [toggle_some_eq s task_id t h]
    show modifyFirst (fun u => u.id == task_id) flipCompleted s.tasks = _
    rw [hsplit]
    exact modifyFirst_append _ _ l1 l2 t hl1 hpt
  · rw [toggle_next_eq]

/-- C10 witness: the frame theorem applied to task 1 of the initial
store. -/
theorem toggle_frame_witness :
    (toggle_task initialStore 1).1.next_task_id = initialStore.next_task_id := by
  obtain ⟨l1, l2, h1, h2, h3, h4, h5, h6, h7, h8⟩ :=
    toggle_frame initialStore 1 ⟨1, "Learn HTMX", false, some "high"⟩ (by decide)
  exact h8

end HtmxApp
